import Mathlib

/-!
Shallow embedding of the extraction-and-normalization pipeline of
src/beatport_playlist_scraper.py (the repository beatsync-codex).

Python JSON values are modelled by the inductive type `Json`; Python dicts
become association lists (keys unique, insertion ordered, later duplicate
keys during parsing overwrite the stored value in place, as in CPython).
Python sets of key names (module constants, lines 34-39 of the source) are
modelled as lists in source order; their iteration order is only observable
when a record carries several keys of one set, which no claim exercises.
Machine-level details (network, selenium, file output) are out of scope:
only the pure pipeline html -> list of canonical tracks is embedded.
-/

namespace Beatport

/-- Model of a parsed JSON value (Python object produced by json.loads).
Numbers are modelled as integers: the parser below treats non-integer
numerals as unparseable, which no part of the repository exercises. -/
inductive Json where
  | null : Json
  | bool (b : Bool) : Json
  | num (n : Int) : Json
  | str (s : String) : Json
  | arr (elems : List Json) : Json
  | obj (fields : List (String × Json)) : Json

/-- Association list standing for a Python dict. -/
abbrev Dict := List (String × Json)

/-- Lookup of a key in a dict: value of the first matching entry. -/
def getVal (d : Dict) (k : String) : Option Json :=
  match d with
  | [] => none
  | (k0, v) :: rest => if k0 = k then some v else getVal rest k

/-- Membership test for a key, Python `k in d`. -/
def hasKey (d : Dict) (k : String) : Bool :=
  match d with
  | [] => false
  | (k0, _) :: rest => k0 = k || hasKey rest k

/-- Source line 34: TRACK_NAME_KEYS. -/
def TRACK_NAME_KEYS : List String := ["name", "title", "track_name", "trackName"]

/-- Source line 35: ARTIST_KEYS. -/
def ARTIST_KEYS : List String := ["artists", "artist", "artist_name", "artistName"]

/-- Source line 36: MIX_KEYS. -/
def MIX_KEYS : List String := ["mixName", "mix_name", "mix"]

/-- Source line 37: LABEL_KEYS. -/
def LABEL_KEYS : List String := ["label", "labelName", "label_name"]

/-- Source line 38: GENRE_KEYS. -/
def GENRE_KEYS : List String := ["genre", "genreName", "primaryGenre"]

/-- Source line 39: IMAGE_KEYS. -/
def IMAGE_KEYS : List String := ["image", "images", "artwork", "album_art", "albumArt"]

/-- Python truthiness of a JSON value (used by the `or ""` defaults in
normalize_track, source lines 396-397). -/
def truthy : Json → Bool
  | .null => false
  | .bool b => b
  | .num n => n != 0
  | .str s => s != ""
  | .arr elems => !elems.isEmpty
  | .obj fields => !fields.isEmpty

/-- Python str.lower restricted to ASCII letters; the source only compares
against the ASCII strings "original mix" and "original". -/
def pyLowerChar (c : Char) : Char :=
  if 'A' ≤ c ∧ c ≤ 'Z' then Char.ofNat (c.toNat + 32) else c

/-- Python str.lower, modelled characterwise in ASCII range. -/
def pyLower (s : String) : String :=
  String.mk (s.data.map pyLowerChar)

/-- Whitespace characters stripped by Python str.strip (ASCII subset;
the Unicode space classes are not exercised by the repository). -/
def isPySpace (c : Char) : Bool :=
  c == ' ' || c == '\t' || c == '\n' || c == '\r' || c == '\x0b' || c == '\x0c'

/-- Python str.strip: drop leading and trailing whitespace. -/
def pyStrip (s : String) : String :=
  String.mk (((s.data.dropWhile isPySpace).reverse.dropWhile isPySpace).reverse)

/-- Python str.startswith. -/
def pyStartsWith (s pre : String) : Bool :=
  pre.data.isPrefixOf s.data

/-- Python repr of a string, modelled as plain single quoting; the escape
rules inside repr are not exercised by the repository, which only ever
stringifies scalar field values. -/
def pyReprStr (s : String) : String :=
  "\x27" ++ s ++ "\x27"

mutual

/-- Python repr of a JSON value (the rendering str falls back to for
containers). -/
def pyRepr : Json → String
  | .null => "None"
  | .bool true => "True"
  | .bool false => "False"
  | .num n => toString n
  | .str s => pyReprStr s
  | .arr elems => "[" ++ String.intercalate ", " (pyReprList elems) ++ "]"
  | .obj fields => "\x7b" ++ String.intercalate ", " (pyReprFields fields) ++ "\x7d"

/-- Renderings of the elements of a list. -/
def pyReprList : List Json → List String
  | [] => []
  | v :: rest => pyRepr v :: pyReprList rest

/-- Renderings of the entries of a dict. -/
def pyReprFields : List (String × Json) → List String
  | [] => []
  | (k, v) :: rest => (pyReprStr k ++ ": " ++ pyRepr v) :: pyReprFields rest

end

/-- Python str() applied to a JSON value. -/
def pyStr : Json → String
  | .null => "None"
  | .bool true => "True"
  | .bool false => "False"
  | .num n => toString n
  | .str s => s
  | .arr elems => pyRepr (.arr elems)
  | .obj fields => pyRepr (.obj fields)

/-- Source lines 334-338: find_first, first present key of an ordered key
list (the Python source iterates a set; see the module comment). -/
def find_first (data : Dict) (keys : List String) : Option Json :=
  match keys with
  | [] => none
  | k :: rest =>
    match getVal data k with
    | some v => some v
    | none => find_first data rest

/-- Names collected from the elements of a list by normalize_artist_list
(source lines 343-349). -/
def artistNamesOf : List Json → List String
  | [] => []
  | .obj fields :: rest =>
    if hasKey fields "name" then
      pyStr ((getVal fields "name").getD .null) :: artistNamesOf rest
    else artistNamesOf rest
  | .str s :: rest => s :: artistNamesOf rest
  | _ :: rest => artistNamesOf rest

/-- Source lines 341-354: normalize_artist_list. A Python None argument
(absent key) is represented by Json.null, which takes the same final
branch as JSON null does in the source. -/
def normalize_artist_list : Json → List String
  | .arr elems => artistNamesOf elems
  | .obj fields =>
    if hasKey fields "name" then [pyStr ((getVal fields "name").getD .null)] else []
  | .str s => [s]
  | _ => []

/-- Source lines 357-364: normalize_label. -/
def normalize_label (value : Json) (remixers : List String) : String :=
  match value with
  | .obj fields =>
    if hasKey fields "name" then pyStr ((getVal fields "name").getD .null)
    else if !remixers.isEmpty then String.intercalate ", " remixers
    else ""
  | .str s => s
  | _ =>
    if !remixers.isEmpty then String.intercalate ", " remixers
    else ""

/-- Source lines 367-374: normalize_genre. -/
def normalize_genre : Json → String
  | .obj fields =>
    match getVal fields "name" with
    | some v => pyStr v
    | none =>
      match getVal fields "slug" with
      | some v => pyStr v
      | none => ""
  | .str s => s
  | _ => ""

/-- Scan of dict values for the first string starting with "http"
(source lines 384-386). -/
def firstHttpString : List Json → String
  | [] => ""
  | .str s :: rest => if pyStartsWith s "http" then s else firstHttpString rest
  | _ :: rest => firstHttpString rest

mutual

/-- Source lines 377-392: normalize_image. -/
def normalize_image : Json → String
  | .str s => s
  | .obj fields =>
    match getVal fields "uri" with
    | some v => pyStr v
    | none =>
      match getVal fields "url" with
      | some v => pyStr v
      | none => firstHttpString (fields.map Prod.snd)
  | .arr elems => firstImageOf elems
  | _ => ""

/-- First non-empty recursive image of a list (source lines 387-391). -/
def firstImageOf : List Json → String
  | [] => ""
  | e :: rest =>
    let image := normalize_image e
    if image != "" then image else firstImageOf rest

end

/-- Canonical output record: the fixed six string fields produced by
normalize_track (source lines 422-429). -/
structure CanonicalTrack where
  song_name : String
  artist_name : String
  label_name : String
  genre : String
  bpm_key : String
  album_art : String
deriving DecidableEq

/-- Resolved base title value of a record: source line 396,
find_first(track, TRACK_NAME_KEYS) or "". -/
def resolved_title_json (track : Dict) : Json :=
  match find_first track TRACK_NAME_KEYS with
  | some v => if truthy v then v else .str ""
  | none => .str ""

/-- Resolved mix value of a record after the dict unwrap: source lines
397 and 402-403. -/
def resolved_mix_json (track : Dict) : Json :=
  let m0 : Json :=
    match find_first track MIX_KEYS with
    | some v => if truthy v then v else .str ""
    | none => .str ""
  match m0 with
  | .obj fields =>
    if hasKey fields "name" then (getVal fields "name").getD .null else .obj fields
  | _ => m0

/-- Source line 405: str(title).strip(). -/
def title_text (track : Dict) : String :=
  pyStrip (pyStr (resolved_title_json track))

/-- Source line 406: mix_name_text = str(mix_name).strip(). -/
def mix_name_text (track : Dict) : String :=
  pyStrip (pyStr (resolved_mix_json track))

/-- Source line 399: artists of a record. -/
def track_artists (track : Dict) : List String :=
  normalize_artist_list ((find_first track ARTIST_KEYS).getD .null)

/-- Source line 400: remixers of a record (track.get with a Python None
default, represented by Json.null). -/
def track_remixers (track : Dict) : List String :=
  normalize_artist_list ((getVal track "remixers").getD .null)

/-- Source lines 405-413: assembly of song_name from title parts. -/
def song_name_of (track : Dict) : String :=
  let parts0 := [title_text track]
  let parts1 :=
    if mix_name_text track != "" &&
        !(["original mix", "original"].contains (pyLower (mix_name_text track))) then
      parts0 ++ [mix_name_text track]
    else parts0
  let parts2 :=
    if !(track_remixers track).isEmpty && mix_name_text track == "" then
      parts1 ++
        [String.intercalate " " [String.intercalate ", " (track_remixers track), "Remix"]]
    else parts1
  pyStrip (String.intercalate " " (parts2.filter (fun p => p != "")))

/-- Source lines 395-429: normalize_track. The bpm_key field is assigned
the literal empty string on source line 418. -/
def normalize_track (track : Dict) : CanonicalTrack :=
  { song_name := song_name_of track
    artist_name := String.intercalate ", " (track_artists track)
    label_name := normalize_label ((find_first track LABEL_KEYS).getD .null) (track_remixers track)
    genre := normalize_genre ((find_first track GENRE_KEYS).getD .null)
    bpm_key := ""
    album_art := normalize_image ((find_first track IMAGE_KEYS).getD .null) }

/-- Source lines 301-305: is_track_dict, the record classifier. Set
intersection non-emptiness becomes an any-membership test. -/
def is_track_dict (data : Dict) : Bool :=
  (data.any fun p => TRACK_NAME_KEYS.contains p.1) &&
    ((data.any fun p => ARTIST_KEYS.contains p.1) ||
      (data.any fun p => MIX_KEYS.contains p.1) ||
      hasKey data "bpm")

/-- Source lines 308-314: iter_nested, the direct children of a node. -/
def iter_nested : Json → List Json
  | .obj fields => fields.map Prod.snd
  | .arr elems => elems
  | _ => []

mutual

/-- Structural size of a JSON value, the termination measure of the
work-list traversal. -/
def jsize : Json → Nat
  | .null => 1
  | .bool _ => 1
  | .num _ => 1
  | .str _ => 1
  | .arr elems => 1 + jsizeList elems
  | .obj fields => 1 + jsizeFields fields

/-- Total size of a list of JSON values. -/
def jsizeList : List Json → Nat
  | [] => 0
  | v :: rest => jsize v + jsizeList rest

/-- Total size of the values of a dict. -/
def jsizeFields : List (String × Json) → Nat
  | [] => 0
  | (_, v) :: rest => jsize v + jsizeFields rest

end

theorem jsize_pos (j : Json) : 1 ≤ jsize j := by
  cases j <;> simp [jsize]

theorem jsizeList_append (a b : List Json) :
    jsizeList (a ++ b) = jsizeList a + jsizeList b := by
  induction a with
  | nil => simp [jsizeList]
  | cons x xs ih => simp [jsizeList, ih]; omega

theorem jsizeList_reverse (l : List Json) :
    jsizeList l.reverse = jsizeList l := by
  induction l with
  | nil => rfl
  | cons x xs ih => simp [jsizeList, List.reverse_cons, jsizeList_append, ih]; omega

theorem jsizeFields_eq_map (fields : List (String × Json)) :
    jsizeList (fields.map Prod.snd) = jsizeFields fields := by
  induction fields with
  | nil => rfl
  | cons p rest ih => cases p; simp [jsizeList, jsizeFields, ih]

theorem jsizeList_iter_nested (j : Json) : jsizeList (iter_nested j) < jsize j := by
  cases j <;> simp [iter_nested, jsize, jsizeList, jsizeFields_eq_map]

/-- Records collected from the trusted tracks key of a node: source lines
324-327, the mapping elements of the list stored under "tracks". -/
def tracksKeyRecords (fields : Dict) : List Dict :=
  match getVal fields "tracks" with
  | some (.arr elems) =>
    elems.filterMap fun t => match t with | .obj f => some f | _ => none
  | _ => []

/-- Records contributed by one visited node: the trusted tracks children
(source lines 324-327) followed by the node itself when the classifier
accepts it (source lines 328-329). -/
def collectedOf : Json → List Dict
  | .obj fields =>
    tracksKeyRecords fields ++ (if is_track_dict fields then [fields] else [])
  | _ => []

/-- Source lines 317-331: the while-loop of extract_tracks_from_data. The
Python list used as a stack pops from its end and extends at the end, so
the model keeps the next element to pop at the head and pushes the
reversed child list. The fuel argument keeps the recursion structural;
every step shrinks the total stack size by at least one, so any fuel of
at least the total size of the stack gives the full loop. -/
def extractLoop : Nat → List Json → List Dict
  | 0, _ => []
  | _ + 1, [] => []
  | fuel + 1, current :: rest =>
    collectedOf current ++ extractLoop fuel ((iter_nested current).reverse ++ rest)

/-- Every loop step shrinks the total stack size by at least one. -/
theorem jsizeList_step (current : Json) (rest : List Json) :
    jsizeList ((iter_nested current).reverse ++ rest) + 1 ≤ jsizeList (current :: rest) := by
  simp only [jsizeList, jsizeList_append, jsizeList_reverse]
  have := jsizeList_iter_nested current
  omega

/-- With enough fuel the loop result does not depend on the fuel. -/
theorem extractLoop_fuel (fuel1 fuel2 : Nat) (stack : List Json)
    (h1 : jsizeList stack ≤ fuel1) (h2 : jsizeList stack ≤ fuel2) :
    extractLoop fuel1 stack = extractLoop fuel2 stack := by
  induction fuel1 generalizing fuel2 stack with
  | zero =>
    cases stack with
    | nil => cases fuel2 <;> rfl
    | cons current rest =>
      exfalso
      have hp := jsize_pos current
      simp only [jsizeList] at h1
      omega
  | succ fuel1 ih =>
    cases stack with
    | nil => cases fuel2 <;> rfl
    | cons current rest =>
      cases fuel2 with
      | zero =>
        exfalso
        have hp := jsize_pos current
        simp only [jsizeList] at h2
        omega
      | succ fuel2 =>
        simp only [extractLoop]
        have hstep := jsizeList_step current rest
        exact congrArg _ (ih fuel2 _ (by omega) (by omega))

/-- Source lines 317-331: extract_tracks_from_data. -/
def extract_tracks_from_data (data : Json) : List Dict :=
  extractLoop (jsize data) [data]

/-- Prefix test on character lists. -/
def chPre : List Char → List Char → Bool
  | [], _ => true
  | _ :: _, [] => false
  | a :: as, b :: bs => a == b && chPre as bs

/-- Occurrence test of a pattern anywhere in a character list. -/
def containsSub (needle : List Char) : List Char → Bool
  | [] => chPre needle []
  | c :: tail => chPre needle (c :: tail) || containsSub needle tail

/-- Split at the first greater-than character: (before, after). In the
NEXT_DATA regex every element before the closing bracket of the script
tag excludes that character, so the bracket ending the opening tag is
necessarily the first one after the tag name. -/
def splitAtFirstGt : List Char → Option (List Char × List Char)
  | [] => none
  | c :: rest =>
    if c == '>' then some ([], rest)
    else
      match splitAtFirstGt rest with
      | some (b, a) => some (c :: b, a)
      | none => none

/-- Text before the first occurrence of a pattern: the lazy capture of a
non-greedy dot-all group followed by a literal. -/
def splitBefore (needle : List Char) : List Char → Option (List Char)
  | [] => if chPre needle [] then some [] else none
  | c :: tail =>
    if chPre needle (c :: tail) then some []
    else (splitBefore needle tail).map (fun r => c :: r)

/-- Literal opening of the hydration script pattern (source line 268). -/
def scriptOpenLit : List Char := "<script".data

/-- Literal id attribute of the hydration script pattern. -/
def nextDataIdLit : List Char := "id=\"__NEXT_DATA__\"".data

/-- Literal closing tag of the hydration script pattern. -/
def scriptCloseLit : List Char := "</script>".data

/-- Match of the NEXT_DATA pattern anchored at the current position,
returning the captured script content. The one-or-more character class
before the id literal requires the literal to occur at offset at least
one within the opening tag. -/
def nextDataAt (s : List Char) : Option (List Char) :=
  if chPre scriptOpenLit s then
    match splitAtFirstGt (s.drop 7) with
    | some (before, after) =>
      if containsSub nextDataIdLit (before.drop 1) then
        splitBefore scriptCloseLit after
      else none
    | none => none
  else none

/-- Leftmost-position search of re.search for the NEXT_DATA pattern; the
fuel argument is the input length, one unit per scanned position. -/
def nextDataSearch : Nat → List Char → Option (List Char)
  | 0, _ => none
  | _ + 1, [] => none
  | fuel + 1, c :: tail =>
    match nextDataAt (c :: tail) with
    | some cap => some cap
    | none => nextDataSearch fuel tail

/-- Captured group of the NEXT_DATA pattern of source lines 267-271, when
the page has one. -/
def next_data_capture (html : String) : Option String :=
  (nextDataSearch html.data.length html.data).map String.mk

/-- Characters matched by the regex whitespace class (ASCII subset; the
Unicode additions are not exercised by the repository). -/
def skipRegexWs (s : List Char) : List Char := s.dropWhile isPySpace

/-- Match of the closing whitespace-semicolon tail of a state-assignment
pattern, returning the remainder after the semicolon. -/
def wsThenSemi (s : List Char) : Option (List Char) :=
  match skipRegexWs s with
  | ';' :: rest => some rest
  | _ => none

/-- Lazy scan for the closing brace of a state assignment: smallest split
of the input as content, closing brace, whitespace, semicolon. Returns
the content and the remainder after the semicolon. -/
def lazyBraceSemi : List Char → Option (List Char × List Char)
  | [] => none
  | c :: rest =>
    if c == '\x7d' then
      match wsThenSemi rest with
      | some rem => some ([], rem)
      | none =>
        match lazyBraceSemi rest with
        | some (content, rem) => some (c :: content, rem)
        | none => none
    else
      match lazyBraceSemi rest with
      | some (content, rem) => some (c :: content, rem)
      | none => none

/-- Match of one state-assignment pattern (source lines 279-282) anchored
at the current position: variable literal, whitespace, equals sign,
whitespace, brace-delimited lazy group, whitespace, semicolon. Returns
the capture (braces included) and the remainder after the match. -/
def stateMatchAt (varLit : List Char) (s : List Char) : Option (List Char × List Char) :=
  if chPre varLit s then
    match skipRegexWs (s.drop varLit.length) with
    | '=' :: t2 =>
      match skipRegexWs t2 with
      | '\x7b' :: t3 =>
        match lazyBraceSemi t3 with
        | some (content, rem) => some ('\x7b' :: (content ++ ['\x7d']), rem)
        | none => none
      | _ => none
    | _ => none
  else none

/-- Left-to-right non-overlapping scan of re.finditer for one
state-assignment pattern; the fuel argument is the input length, enough
because every step consumes at least one character. -/
def stateScan (varLit : List Char) : Nat → List Char → List (List Char)
  | 0, _ => []
  | _ + 1, [] => []
  | fuel + 1, c :: tail =>
    match stateMatchAt varLit (c :: tail) with
    | some (cap, rem) => cap :: stateScan varLit fuel rem
    | none => stateScan varLit fuel tail

/-- Variable literal of the first state pattern (source line 280). -/
def preloadedLit : List Char := "window.__PRELOADED_STATE__".data

/-- Variable literal of the second state pattern (source line 281). -/
def initialLit : List Char := "window.__INITIAL_STATE__".data

/-- Captures of the PRELOADED_STATE pattern over the whole page. -/
def preloaded_captures (html : String) : List String :=
  (stateScan preloadedLit html.data.length html.data).map String.mk

/-- Captures of the INITIAL_STATE pattern over the whole page. -/
def initial_captures (html : String) : List String :=
  (stateScan initialLit html.data.length html.data).map String.mk

/-- Literal opening of the data-track pattern (source line 291). -/
def dataTrackLit : List Char := "data-track=\"".data

/-- Lazy scan for a closing brace immediately followed by a double quote:
smallest split of the input as content, brace, quote. The data-track
pattern is compiled without the dot-all flag, so its lazy group cannot
cross a newline. -/
def lazyBraceQuote : List Char → Option (List Char × List Char)
  | [] => none
  | c :: rest =>
    if c == '\x7d' then
      match rest with
      | '"' :: rem => some ([], rem)
      | _ =>
        match lazyBraceQuote rest with
        | some (content, rem) => some (c :: content, rem)
        | none => none
    else if c == '\n' then none
    else
      match lazyBraceQuote rest with
      | some (content, rem) => some (c :: content, rem)
      | none => none

/-- Match of the data-track pattern anchored at the current position,
returning the capture (braces included) and the remainder. -/
def dataTrackAt (s : List Char) : Option (List Char × List Char) :=
  if chPre dataTrackLit s then
    match s.drop dataTrackLit.length with
    | '\x7b' :: t =>
      match lazyBraceQuote t with
      | some (content, rem) => some ('\x7b' :: (content ++ ['\x7d']), rem)
      | none => none
    | _ => none
  else none

/-- Left-to-right non-overlapping scan of re.findall for the data-track
pattern. -/
def dataTrackScan : Nat → List Char → List (List Char)
  | 0, _ => []
  | _ + 1, [] => []
  | fuel + 1, c :: tail =>
    match dataTrackAt (c :: tail) with
    | some (cap, rem) => cap :: dataTrackScan fuel rem
    | none => dataTrackScan fuel tail

/-- Captures of the data-track pattern over the whole page. -/
def data_track_captures (html : String) : List String :=
  (dataTrackScan html.data.length html.data).map String.mk

/-- Models html.unescape restricted to the five standard XML entities; it
is the identity on entity-free text, which is all the repository feeds it
in practice. -/
def unescapeChars : List Char → List Char
  | [] => []
  | '&' :: 'a' :: 'm' :: 'p' :: ';' :: rest => '&' :: unescapeChars rest
  | '&' :: 'l' :: 't' :: ';' :: rest => '<' :: unescapeChars rest
  | '&' :: 'g' :: 't' :: ';' :: rest => '>' :: unescapeChars rest
  | '&' :: 'q' :: 'u' :: 'o' :: 't' :: ';' :: rest => '"' :: unescapeChars rest
  | '&' :: '#' :: '3' :: '9' :: ';' :: rest => '\x27' :: unescapeChars rest
  | c :: rest => c :: unescapeChars rest

/-- Models html.unescape on strings. -/
def pyUnescape (s : String) : String := String.mk (unescapeChars s.data)

/-- Whitespace accepted by json.loads between tokens. -/
def isJsonWs (c : Char) : Bool := c == ' ' || c == '\t' || c == '\n' || c == '\r'

/-- Skip of JSON inter-token whitespace. -/
def skipJWs (s : List Char) : List Char := s.dropWhile isJsonWs

/-- Value of a hexadecimal digit. -/
def hexVal (c : Char) : Option Nat :=
  if '0' ≤ c ∧ c ≤ '9' then some (c.toNat - '0'.toNat)
  else if 'a' ≤ c ∧ c ≤ 'f' then some (c.toNat - 'a'.toNat + 10)
  else if 'A' ≤ c ∧ c ≤ 'F' then some (c.toNat - 'A'.toNat + 10)
  else none

/-- Body of a JSON string literal after the opening quote, with the
standard JSON escapes; a unicode escape yields its single code unit. -/
def parseStringBody : List Char → Option (List Char × List Char)
  | [] => none
  | '"' :: rest => some ([], rest)
  | '\\' :: '"' :: rest => (parseStringBody rest).map (fun p => ('"' :: p.1, p.2))
  | '\\' :: '\\' :: rest => (parseStringBody rest).map (fun p => ('\\' :: p.1, p.2))
  | '\\' :: '/' :: rest => (parseStringBody rest).map (fun p => ('/' :: p.1, p.2))
  | '\\' :: 'b' :: rest => (parseStringBody rest).map (fun p => ('\x08' :: p.1, p.2))
  | '\\' :: 'f' :: rest => (parseStringBody rest).map (fun p => ('\x0c' :: p.1, p.2))
  | '\\' :: 'n' :: rest => (parseStringBody rest).map (fun p => ('\n' :: p.1, p.2))
  | '\\' :: 'r' :: rest => (parseStringBody rest).map (fun p => ('\r' :: p.1, p.2))
  | '\\' :: 't' :: rest => (parseStringBody rest).map (fun p => ('\t' :: p.1, p.2))
  | '\\' :: 'u' :: h1 :: h2 :: h3 :: h4 :: rest =>
    match hexVal h1, hexVal h2, hexVal h3, hexVal h4 with
    | some a, some b, some c, some d =>
      (parseStringBody rest).map
        (fun p => (Char.ofNat (((a * 16 + b) * 16 + c) * 16 + d) :: p.1, p.2))
    | _, _, _, _ => none
  | '\\' :: _ => none
  | c :: rest => (parseStringBody rest).map (fun p => (c :: p.1, p.2))

/-- Maximal digit prefix of the input. -/
def takeDigits : List Char → (List Char × List Char)
  | [] => ([], [])
  | c :: rest =>
    if c.isDigit then
      let p := takeDigits rest
      (c :: p.1, p.2)
    else ([], c :: rest)

/-- Natural number denoted by a digit list. -/
def digitsToNat (ds : List Char) : Nat :=
  ds.foldl (fun acc c => acc * 10 + (c.toNat - 48)) 0

/-- Integer numeral of json.loads; fraction and exponent forms are
treated as unparseable and the leading-zero restriction is not enforced,
modelling divergences not exercised by the repository. -/
def parseNumberChars (s : List Char) : Option (Int × List Char) :=
  let p : Bool × List Char := match s with | '-' :: t => (true, t) | _ => (false, s)
  match takeDigits p.2 with
  | ([], _) => none
  | (ds, rem) =>
    match rem with
    | '.' :: _ => none
    | 'e' :: _ => none
    | 'E' :: _ => none
    | _ =>
      let n : Int := Int.ofNat (digitsToNat ds)
      some (if p.1 then -n else n, rem)

/-- Overwrite of a key in a dict, keeping the position of an existing
entry: the CPython duplicate-key behaviour of json.loads. -/
def setKey : Dict → String → Json → Dict
  | [], k, v => [(k, v)]
  | (k0, v0) :: rest, k, v =>
    if k0 = k then (k, v) :: rest else (k0, v0) :: setKey rest k v

/-- Dict built from parsed key-value pairs in order. -/
def pairsToDict (pairs : List (String × Json)) : Dict :=
  pairs.foldl (fun d p => setKey d p.1 p.2) []

mutual

/-- Parse of one JSON value at the current position (leading whitespace
already skipped). The fuel argument bounds the call depth; twice the
input length suffices because every other call level consumes at least
one character. -/
def parseValue : Nat → List Char → Option (Json × List Char)
  | 0, _ => none
  | fuel + 1, s =>
    match s with
    | 'n' :: 'u' :: 'l' :: 'l' :: rest => some (.null, rest)
    | 't' :: 'r' :: 'u' :: 'e' :: rest => some (.bool true, rest)
    | 'f' :: 'a' :: 'l' :: 's' :: 'e' :: rest => some (.bool false, rest)
    | '"' :: rest =>
      match parseStringBody rest with
      | some (cs, rem) => some (.str (String.mk cs), rem)
      | none => none
    | '[' :: rest =>
      match skipJWs rest with
      | ']' :: rem => some (.arr [], rem)
      | t =>
        match parseElems fuel t with
        | some (elems, rem) => some (.arr elems, rem)
        | none => none
    | '\x7b' :: rest =>
      match skipJWs rest with
      | '\x7d' :: rem => some (.obj [], rem)
      | t =>
        match parseFields fuel t with
        | some (pairs, rem) => some (.obj (pairsToDict pairs), rem)
        | none => none
    | _ => (parseNumberChars s).map (fun p => (.num p.1, p.2))

/-- Parse of the comma-separated elements of a non-empty array, up to and
including the closing bracket. -/
def parseElems : Nat → List Char → Option (List Json × List Char)
  | 0, _ => none
  | fuel + 1, s =>
    match parseValue fuel (skipJWs s) with
    | some (v, rem) =>
      match skipJWs rem with
      | ',' :: rem2 =>
        match parseElems fuel rem2 with
        | some (vs, rem3) => some (v :: vs, rem3)
        | none => none
      | ']' :: rem2 => some ([v], rem2)
      | _ => none
    | none => none

/-- Parse of the comma-separated pairs of a non-empty object, up to and
including the closing brace. -/
def parseFields : Nat → List Char → Option (List (String × Json) × List Char)
  | 0, _ => none
  | fuel + 1, s =>
    match skipJWs s with
    | '"' :: rest =>
      match parseStringBody rest with
      | some (kcs, rem) =>
        match skipJWs rem with
        | ':' :: rem2 =>
          match parseValue fuel (skipJWs rem2) with
          | some (v, rem3) =>
            match skipJWs rem3 with
            | ',' :: rem4 =>
              match parseFields fuel rem4 with
              | some (ps, rem5) => some ((String.mk kcs, v) :: ps, rem5)
              | none => none
            | '\x7d' :: rem4 => some ([(String.mk kcs, v)], rem4)
            | _ => none
          | none => none
        | _ => none
      | none => none
    | _ => none

end

/-- Models json.loads: parse of a complete JSON document, requiring the
whole input to be consumed up to trailing whitespace. -/
def parseJson (s : String) : Option Json :=
  let cs := skipJWs s.data
  match parseValue (2 * cs.length + 2) cs with
  | some (v, rest) => if (skipJWs rest).isEmpty then some v else none
  | none => none

/-- Source lines 264-298: extract_script_json. Captures of the three
pattern families are parsed in source order; parse failures are skipped,
matching the silent except branches. -/
def extract_script_json (html : String) : List Json :=
  (match next_data_capture html with
    | some raw => (parseJson (pyStrip (pyUnescape raw))).toList
    | none => [])
  ++ (preloaded_captures html).filterMap parseJson
  ++ (initial_captures html).filterMap parseJson
  ++ (data_track_captures html).filterMap (fun cap => parseJson (pyUnescape cap))

/-- Deduplication identity of a canonical track (source lines 479-483). -/
def trackKey (t : CanonicalTrack) : String × String × String :=
  (t.song_name, t.artist_name, t.label_name)

/-- Source lines 475-489: the normalize-and-deduplicate loop of
build_playlist_data; the Python seen set is modelled as a list used only
through membership. -/
def dedupTracks : List Dict → List (String × String × String) → List CanonicalTrack
  | [], _ => []
  | track :: rest, seen =>
    let n := normalize_track track
    if trackKey n ∈ seen then dedupTracks rest seen
    else if n.song_name != "" then n :: dedupTracks rest (trackKey n :: seen)
    else dedupTracks rest (trackKey n :: seen)

/-- All candidate records discovered across the blobs of a page, in
collection order (source lines 465-470). -/
def collected_records (html : String) : List Dict :=
  ((extract_script_json html).map extract_tracks_from_data).flatten

/-- Source lines 463-490: build_playlist_data. The cookies and URL
parameters of the source function are unused by its body. -/
def build_playlist_data (html : String) : List CanonicalTrack :=
  dedupTracks (collected_records html) []

set_option maxRecDepth 16384

/-- Defaulting of a string field through Python truthiness is the
identity on string values, because the falsy string is the empty one. -/
theorem resolve_str (s : String) :
    (if truthy (.str s) then Json.str s else .str "") = .str s := by
  by_cases h : s = "" <;> simp [truthy, h]

/-- Record of the mix-suppression example: name Strobe, mix Original Mix
(spec section 8). -/
def exMix1 : Dict := [("name", .str "Strobe"), ("mix", .str "Original Mix")]

/-- Record of the mix-inclusion example: name Strobe, mix Club Mix. -/
def exMix2 : Dict := [("name", .str "Strobe"), ("mix", .str "Club Mix")]

/-- Record of the remix-fallback example: name Strobe, no mix field,
remixers DJ X. -/
def exRemix : Dict := [("name", .str "Strobe"), ("remixers", .arr [.obj [("name", .str "DJ X")]])]

/-- C10: for every candidate record, the normalizer returns bpm_key equal
to the empty string, regardless of any bpm, bpm_value, tempo, key, or
key_name fields present in the record (source line 418 assigns the
literal empty string unconditionally). -/
theorem C10_bpm_key_empty (track : Dict) : (normalize_track track).bpm_key = "" := rfl

/-- C5: for a record whose resolved base name and mix name are strings,
the trimmed non-empty mix name is appended to the title joined by a
single space unless it is, case-insensitively, original mix or original,
in which case it is suppressed and only the title remains. -/
theorem C5_mix_name_rule (track : Dict) (base mix : String)
    (hname : find_first track TRACK_NAME_KEYS = some (.str base))
    (hmix : find_first track MIX_KEYS = some (.str mix))
    (hne : (pyStrip mix != "") = true) :
    (normalize_track track).song_name
      = pyStrip (String.intercalate " "
          ((if !(["original mix", "original"].contains (pyLower (pyStrip mix)))
            then [pyStrip base, pyStrip mix]
            else [pyStrip base]).filter (fun p => p != ""))) := by
  have htitle : resolved_title_json track = .str base := by
    simp [resolved_title_json, hname, resolve_str]
  have hmixj : resolved_mix_json track = .str mix := by
    simp [resolved_mix_json, hmix, resolve_str]
  have htt : title_text track = pyStrip base := by simp [title_text, htitle, pyStr]
  have hmt : mix_name_text track = pyStrip mix := by simp [mix_name_text, hmixj, pyStr]
  have hp : ¬ (pyStrip mix = "") := by simpa [bne] using hne
  simp only [normalize_track, song_name_of, htt, hmt, hne, Bool.true_and]
  by_cases hc : (["original mix", "original"].contains (pyLower (pyStrip mix))) = true
  · simp [hc, hp]
  · simp only [Bool.not_eq_true] at hc
    simp [hc, hp]

/-- C5 witness: the two concrete examples of the claim, obtained from the
theorem at the example records. -/
theorem C5_mix_name_rule_witness :
    (normalize_track exMix1).song_name = "Strobe" ∧
    (normalize_track exMix2).song_name = "Strobe Club Mix" :=
  ⟨(C5_mix_name_rule exMix1 "Strobe" "Original Mix" rfl rfl (by decide)).trans (by decide),
   (C5_mix_name_rule exMix2 "Strobe" "Club Mix" rfl rfl (by decide)).trans (by decide)⟩

/-- C6: for a record whose mix name resolves to the empty string and
whose remixers normalize to a non-empty list, the normalizer appends the
comma-joined remixers followed by the word Remix to the title. -/
theorem C6_remix_fallback (track : Dict)
    (hmix : (mix_name_text track == "") = true)
    (hrem : (track_remixers track).isEmpty = false) :
    (normalize_track track).song_name
      = pyStrip (String.intercalate " "
          (([title_text track,
             String.intercalate " " [String.intercalate ", " (track_remixers track), "Remix"]]).filter
            (fun p => p != ""))) := by
  have hne : (mix_name_text track != "") = false := by
    simpa [bne] using hmix
  simp only [normalize_track, song_name_of, hne, hmix, hrem, Bool.false_and, if_false,
    Bool.not_false, Bool.true_and, if_true]
  simp

/-- C6 witness: the concrete remix-fallback example of the claim,
obtained from the theorem at the example record. -/
theorem C6_remix_fallback_witness :
    (normalize_track exRemix).song_name = "Strobe DJ X Remix" :=
  (C6_remix_fallback exRemix (by decide) (by decide)).trans (by decide)

/-- Shape predicate of a label value that normalize_label uses directly:
a string, or a mapping carrying a name field. -/
def isLabelUsable : Json → Bool
  | .str _ => true
  | .obj fields => hasKey fields "name"
  | _ => false

/-- Record with a present but unusable label value (a number) and a
non-empty remixers list. -/
def cex7track : Dict :=
  [("name", .str "T"), ("label", .num 5), ("remixers", .arr [.obj [("name", .str "R")]])]

/-- C7 counterexample: on a record whose label key holds a number and
whose remixers list is non-empty, the resolved label_name is not the
empty string, contradicting the claim that a present but unusable label
value resolves to the empty string. -/
theorem C7_counterexample : ¬ ((normalize_track cex7track).label_name = "") := by decide

/-- C7 amended: when the first present label-key value is neither a
string nor a mapping with a name field, normalize_label falls through to
the comma-joined remixers list whether or not the label key was present,
and yields the empty string only when the remixers list is empty too
(source lines 357-364 test only the shape of the value, not the presence
of the key). -/
theorem C7_label_fallback_amended (track : Dict) (v : Json)
    (hlab : find_first track LABEL_KEYS = some v)
    (husable : isLabelUsable v = false) :
    (normalize_track track).label_name
      = (if (track_remixers track).isEmpty then ""
         else String.intercalate ", " (track_remixers track)) := by
  simp only [normalize_track, hlab, Option.getD]
  cases v with
  | str s => simp [isLabelUsable] at husable
  | obj fields =>
    simp only [isLabelUsable] at husable
    simp only [normalize_label, husable, Bool.false_eq_true, if_false]
    by_cases hr : (track_remixers track).isEmpty <;> simp [hr]
  | null =>
    simp only [normalize_label]
    by_cases hr : (track_remixers track).isEmpty <;> simp [hr]
  | bool b =>
    simp only [normalize_label]
    by_cases hr : (track_remixers track).isEmpty <;> simp [hr]
  | num n =>
    simp only [normalize_label]
    by_cases hr : (track_remixers track).isEmpty <;> simp [hr]
  | arr elems =>
    simp only [normalize_label]
    by_cases hr : (track_remixers track).isEmpty <;> simp [hr]

/-- C7 witness: the amended rule applied to the counterexample record,
whose unusable numeric label resolves to the remixer R. -/
theorem C7_label_fallback_amended_witness :
    (normalize_track cex7track).label_name = "R" :=
  (C7_label_fallback_amended cex7track (.num 5) rfl rfl).trans (by decide)

/-- JSON value of the nested tracks-collection example of the spec. -/
def c4val : Json := .obj [("tracks", .arr [.obj [("name", .str "T1"), ("artist", .str "X")]])]

/-- The single mapping stored under the tracks key of c4val. -/
def c4rec : Dict := [("name", Json.str "T1"), ("artist", Json.str "X")]

/-- C4 counterexample: the collector does not yield exactly one candidate
record on the nested tracks example, because the element is collected
once through the trusted tracks key and once more when the traversal
visits it and the classifier accepts it. -/
theorem C4_counterexample : ¬ ((extract_tracks_from_data c4val).length = 1) := by decide

/-- C4 amended: on the nested tracks example the collector yields the
record exactly twice, once through the trusted tracks key of the root and
once through the classifier when the traversal reaches the record itself;
downstream deduplication collapses the two copies. -/
theorem C4_collects_twice_amended :
    extract_tracks_from_data c4val = [c4rec, c4rec] := rfl

/-- HTML page of the end-to-end example: a hydration script with the
dehydrated query payload of the spec. -/
def c1Html : String :=
  "<html><head><script id=\"__NEXT_DATA__\" type=\"application/json\">\x7b\"props\":\x7b\"pageProps\":\x7b\"dehydratedState\":\x7b\"queries\":[\x7b\x7d,\x7b\"state\":\x7b\"data\":\x7b\"results\":[\x7b\"name\":\"Song A\",\"artist\":\"Artist A\",\"bpm\":128,\"key\":\"8A\"\x7d]\x7d\x7d\x7d]\x7d\x7d\x7d\x7d</script></head></html>"

/-- Canonical track the pipeline produces from c1Html. -/
def c1Track : CanonicalTrack :=
  { song_name := "Song A", artist_name := "Artist A", label_name := ""
    genre := "", bpm_key := "", album_art := "" }

/-- Evaluation of the full pipeline on the end-to-end example page. -/
theorem c1_pipeline_eval : build_playlist_data c1Html = [c1Track] := by decide

/-- C1 counterexample: the pipeline on the end-to-end example page does
not produce a single track with bpm_key formatted from the bpm and key
fields; the bpm_key of the produced track is the empty string. -/
theorem C1_counterexample :
    ¬ (∃ t, build_playlist_data c1Html = [t] ∧ t.song_name = "Song A" ∧
        t.artist_name = "Artist A" ∧ t.bpm_key = "128 bpm, 8A") := by
  rintro ⟨t, ht, hs, ha, hb⟩
  have h2 := c1_pipeline_eval
  rw [ht] at h2
  injection h2 with h3 _
  rw [h3] at hb
  exact absurd hb (by decide)

/-- C1 amended: the end-to-end example page produces exactly one
canonical track with song_name Song A, artist_name Artist A, and bpm_key
equal to the empty string, since the normalizer leaves bpm_key empty
unconditionally. -/
theorem C1_end_to_end_amended : build_playlist_data c1Html = [c1Track] :=
  c1_pipeline_eval

/-- C8: when the page contains no match of any of the three embedding
patterns, the pipeline returns the empty sequence. The pipeline is a
total function by construction, and blobs whose captured text does not
parse are dropped by the filtering in extract_script_json. -/
theorem C8_no_patterns_empty (html : String)
    (h1 : next_data_capture html = none)
    (h2 : preloaded_captures html = [])
    (h3 : initial_captures html = [])
    (h4 : data_track_captures html = []) :
    build_playlist_data html = [] := by
  simp [build_playlist_data, collected_records, extract_script_json, h1, h2, h3, h4,
    dedupTracks]

/-- C8 witness: a page with no embedding pattern at all yields the empty
sequence through the theorem. -/
theorem C8_no_patterns_empty_witness :
    next_data_capture "hello world" = none ∧
    preloaded_captures "hello world" = [] ∧
    initial_captures "hello world" = [] ∧
    data_track_captures "hello world" = [] ∧
    build_playlist_data "hello world" = [] :=
  ⟨rfl, rfl, rfl, rfl, C8_no_patterns_empty "hello world" rfl rfl rfl rfl⟩

/-- Every track emitted by the deduplication loop carries a key not in
the seen set at entry, and is the normalization of the first record of
the remaining input whose normalization carries its key. -/
theorem dedup_mem_spec (tracks : List Dict) :
    ∀ (seen : List (String × String × String)) (t : CanonicalTrack),
      t ∈ dedupTracks tracks seen →
      trackKey t ∉ seen ∧
      ∃ d, tracks.find? (fun d => decide (trackKey (normalize_track d) = trackKey t)) = some d
        ∧ t = normalize_track d := by
  induction tracks with
  | nil => intro seen t ht; simp [dedupTracks] at ht
  | cons track rest ih =>
    intro seen t ht
    simp only [dedupTracks] at ht
    by_cases h1 : trackKey (normalize_track track) ∈ seen
    · rw [if_pos h1] at ht
      obtain ⟨hns, d, hfind, hteq⟩ := ih seen t ht
      have hne : ¬ (trackKey (normalize_track track) = trackKey t) := fun hEq => hns (hEq ▸ h1)
      refine ⟨hns, d, ?_, hteq⟩
      rw [List.find?_cons_of_neg _ (by simpa using hne)]
      exact hfind
    · rw [if_neg h1] at ht
      by_cases h2 : ((normalize_track track).song_name != "") = true
      · rw [if_pos h2] at ht
        rcases List.mem_cons.mp ht with rfl | hmem
        · refine ⟨h1, track, ?_, rfl⟩
          rw [List.find?_cons_of_pos _ (by simp)]
        · obtain ⟨hns, d, hfind, hteq⟩ := ih _ t hmem
          rw [List.mem_cons, not_or] at hns
          have hne : ¬ (trackKey (normalize_track track) = trackKey t) :=
            fun hEq => hns.1 (hEq ▸ rfl)
          refine ⟨hns.2, d, ?_, hteq⟩
          rw [List.find?_cons_of_neg _ (by simpa using hne)]
          exact hfind
      · rw [if_neg h2] at ht
        obtain ⟨hns, d, hfind, hteq⟩ := ih _ t ht
        rw [List.mem_cons, not_or] at hns
        have hne : ¬ (trackKey (normalize_track track) = trackKey t) :=
          fun hEq => hns.1 (hEq ▸ rfl)
        refine ⟨hns.2, d, ?_, hteq⟩
        rw [List.find?_cons_of_neg _ (by simpa using hne)]
        exact hfind

/-- The deduplication loop never emits two tracks with the same key. -/
theorem dedup_pairwise (tracks : List Dict) :
    ∀ seen, (dedupTracks tracks seen).Pairwise (fun a b => trackKey a ≠ trackKey b) := by
  induction tracks with
  | nil => intro seen; simp [dedupTracks]
  | cons track rest ih =>
    intro seen
    simp only [dedupTracks]
    by_cases h1 : trackKey (normalize_track track) ∈ seen
    · rw [if_pos h1]; exact ih seen
    · rw [if_neg h1]
      by_cases h2 : ((normalize_track track).song_name != "") = true
      · rw [if_pos h2]
        refine List.Pairwise.cons ?_ (ih _)
        intro b hb hEq
        have hspec := (dedup_mem_spec rest _ b hb).1
        exact hspec (hEq ▸ List.mem_cons_self _ _)
      · rw [if_neg h2]; exact ih _

/-- C2: for every page, the output contains at most one track per
deduplication key, and every output track is the normalization of the
first collected candidate record whose normalization carries its key. -/
theorem C2_dedup_first_wins (html : String) :
    (build_playlist_data html).Pairwise (fun a b => trackKey a ≠ trackKey b) ∧
    ∀ t ∈ build_playlist_data html,
      ∃ d, (collected_records html).find?
            (fun d => decide (trackKey (normalize_track d) = trackKey t)) = some d ∧
        t = normalize_track d := by
  refine ⟨dedup_pairwise _ _, fun t ht => ?_⟩
  exact (dedup_mem_spec (collected_records html) [] t ht).2

/-- Page of the deduplication witness: two data-track records that
normalize to the same key but carry different genres. -/
def w2Html : String :=
  "<div data-track=\"\x7b\"name\":\"A\",\"artist\":\"B\",\"genre\":\"House\"\x7d\"></div><div data-track=\"\x7b\"name\":\"A\",\"artist\":\"B\",\"genre\":\"Tech\"\x7d\"></div>"

/-- The single output track of the deduplication witness page: the first
of the two same-key candidates, carrying the genre House. -/
def w2Track : CanonicalTrack :=
  { song_name := "A", artist_name := "B", label_name := ""
    genre := "House", bpm_key := "", album_art := "" }

/-- C2 witness: the theorem applied to the two-duplicate page, whose
output track is the normalization of the first-encountered candidate. -/
theorem C2_dedup_first_wins_witness :
    w2Track ∈ build_playlist_data w2Html ∧
    ∃ d, (collected_records w2Html).find?
          (fun d => decide (trackKey (normalize_track d) = trackKey w2Track)) = some d ∧
      w2Track = normalize_track d :=
  ⟨by decide, (C2_dedup_first_wins w2Html).2 w2Track (by decide)⟩

/-- Every track emitted by the deduplication loop has a non-empty
song_name. -/
theorem dedup_song_nonempty (tracks : List Dict) :
    ∀ (seen) (t : CanonicalTrack), t ∈ dedupTracks tracks seen → ¬ (t.song_name = "") := by
  induction tracks with
  | nil => intro seen t ht; simp [dedupTracks] at ht
  | cons track rest ih =>
    intro seen t ht
    simp only [dedupTracks] at ht
    by_cases h1 : trackKey (normalize_track track) ∈ seen
    · rw [if_pos h1] at ht; exact ih seen t ht
    · rw [if_neg h1] at ht
      by_cases h2 : ((normalize_track track).song_name != "") = true
      · rw [if_pos h2] at ht
        rcases List.mem_cons.mp ht with rfl | hmem
        · simpa [bne] using h2
        · exact ih _ t hmem
      · rw [if_neg h2] at ht; exact ih _ t ht

/-- C3: every track of the final output has a non-empty song_name, and a
candidate record whose resolved song_name is empty never appears in the
output. The output type CanonicalTrack fixes exactly the six string
fields of the canonical schema. -/
theorem C3_song_name_nonempty (html : String) :
    (∀ t ∈ build_playlist_data html, ¬ (t.song_name = "")) ∧
    (∀ d : Dict, (normalize_track d).song_name = "" →
      normalize_track d ∉ build_playlist_data html) := by
  refine ⟨fun t ht => dedup_song_nonempty (collected_records html) [] t ht, ?_⟩
  intro d hd hmem
  exact dedup_song_nonempty (collected_records html) [] _ hmem hd

/-- Page of the drop-rule witness: a single data-track record. -/
def w3Html : String :=
  "<p data-track=\"\x7b\"name\":\"C\",\"artist\":\"D\"\x7d\"></p>"

/-- Output track of the drop-rule witness page. -/
def w3Track : CanonicalTrack :=
  { song_name := "C", artist_name := "D", label_name := ""
    genre := "", bpm_key := "", album_art := "" }

/-- C3 witness: the theorem applied to a concrete page and its output
track, whose song_name is non-empty. -/
theorem C3_song_name_nonempty_witness :
    w3Track ∈ build_playlist_data w3Html ∧ ¬ (w3Track.song_name = "") :=
  ⟨by decide, (C3_song_name_nonempty w3Html).1 w3Track (by decide)⟩

/-- Occurrence of a value anywhere within the nested structure of a JSON
value: the value itself, inside some field of a mapping, or inside some
element of a sequence. -/
inductive Nested : Json → Json → Prop where
  | refl (j : Json) : Nested j j
  | inObjField {sub v : Json} {k : String} {fields : List (String × Json)}
      (hmem : (k, v) ∈ fields) (hsub : Nested sub v) : Nested sub (.obj fields)
  | inArrElem {sub v : Json} {elems : List Json}
      (hmem : v ∈ elems) (hsub : Nested sub v) : Nested sub (.arr elems)

/-- A member of a stack contributes at most the total stack size. -/
theorem jsize_le_of_mem (j : Json) (l : List Json) (h : j ∈ l) : jsize j ≤ jsizeList l := by
  induction l with
  | nil => cases h
  | cons x xs ih =>
    rcases List.mem_cons.mp h with rfl | h2
    · simp only [jsizeList]; omega
    · have := ih h2; simp only [jsizeList]; omega

/-- Completeness of the work-list loop: any mapping nested inside any
stack entry and accepted by the classifier appears in the result,
provided the fuel covers the total stack size. -/
theorem extractLoop_complete (fuel : Nat) :
    ∀ (stack : List Json) (fields : Dict),
      jsizeList stack ≤ fuel →
      (∃ root ∈ stack, Nested (.obj fields) root) →
      is_track_dict fields = true →
      fields ∈ extractLoop fuel stack := by
  induction fuel with
  | zero =>
    intro stack fields hsz hex _
    obtain ⟨root, hroot, _⟩ := hex
    have h1 := jsize_pos root
    have h2 := jsize_le_of_mem root stack hroot
    omega
  | succ fuel ih =>
    intro stack fields hsz hex htrack
    obtain ⟨root, hroot, hnested⟩ := hex
    cases stack with
    | nil => cases hroot
    | cons current rest =>
      have hstep := jsizeList_step current rest
      simp only [extractLoop]
      rw [List.mem_append]
      rcases List.mem_cons.mp hroot with rfl | hrest
      · cases hnested with
        | refl =>
          left
          simp [collectedOf, htrack]
        | inObjField hkv hsub =>
          right
          refine ih _ fields (by omega) ⟨_, ?_, hsub⟩ htrack
          exact List.mem_append_left _ (List.mem_reverse.mpr (List.mem_map_of_mem Prod.snd hkv))
        | inArrElem hmemv hsub =>
          right
          refine ih _ fields (by omega) ⟨_, ?_, hsub⟩ htrack
          exact List.mem_append_left _ (List.mem_reverse.mpr hmemv)
      · right
        exact ih _ fields (by omega) ⟨root, List.mem_append_right _ hrest, hnested⟩ htrack

/-- C9: the traversal of the collector is exhaustive: every mapping
nested anywhere inside a JSON value, at any depth, that the classifier
accepts appears in the output of extract_tracks_from_data. -/
theorem C9_traversal_complete (data : Json) (fields : Dict)
    (hn : Nested (.obj fields) data) (ht : is_track_dict fields = true) :
    fields ∈ extract_tracks_from_data data := by
  refine extractLoop_complete (jsize data) [data] fields ?_
    ⟨data, List.mem_singleton.mpr rfl, hn⟩ ht
  simp [jsizeList]

/-- Track-like record of the deep-nesting witness. -/
def deepRec : Dict := [("name", Json.str "Deep"), ("artist", Json.str "Z")]

/-- Record at nesting depth ten. -/
def lvl10 : Json := .obj deepRec

/-- Ninth nesting level of the deep witness. -/
def lvl9 : Json := .arr [lvl10]

/-- Eighth nesting level of the deep witness. -/
def lvl8 : Json := .obj [("k8", lvl9)]

/-- Seventh nesting level of the deep witness. -/
def lvl7 : Json := .arr [lvl8]

/-- Sixth nesting level of the deep witness. -/
def lvl6 : Json := .obj [("k6", lvl7)]

/-- Fifth nesting level of the deep witness. -/
def lvl5 : Json := .arr [lvl6]

/-- Fourth nesting level of the deep witness. -/
def lvl4 : Json := .obj [("k4", lvl5)]

/-- Third nesting level of the deep witness. -/
def lvl3 : Json := .arr [lvl4]

/-- Second nesting level of the deep witness. -/
def lvl2 : Json := .obj [("k2", lvl3)]

/-- First nesting level of the deep witness. -/
def lvl1 : Json := .arr [lvl2]

/-- Root of the deep witness: a track-like mapping nested ten container
levels deep inside alternating mappings and sequences. -/
def deepVal : Json := .obj [("k0", lvl1)]

/-- C9 witness: the theorem applied to the ten-level alternating value,
discovering the deeply nested record. -/
theorem C9_traversal_complete_witness :
    deepRec ∈ extract_tracks_from_data deepVal := by
  apply C9_traversal_complete
  · exact Nested.inObjField (List.Mem.head _)
      (Nested.inArrElem (List.Mem.head _)
        (Nested.inObjField (List.Mem.head _)
          (Nested.inArrElem (List.Mem.head _)
            (Nested.inObjField (List.Mem.head _)
              (Nested.inArrElem (List.Mem.head _)
                (Nested.inObjField (List.Mem.head _)
                  (Nested.inArrElem (List.Mem.head _)
                    (Nested.inObjField (List.Mem.head _)
                      (Nested.inArrElem (List.Mem.head _)
                        (Nested.refl _))))))))))
  · decide

end Beatport
